import Mathlib

/-!
# Verification of the ralph-code task orchestration and execution pipeline

Shallow embedding of the core of the `ralph-code` repository:

* the Task State Store (`RalphStateDO`, a Durable Object holding the task
  ledger / PRD and an append-only progress log, with `enqueue`, `complete`,
  `fail`, `get-next-task` handlers and a timer-driven `alarm` dispatch loop);
* the Execution Agent pipeline (`ExecutionAgent.execute`, sequencing
  clone → worktree → install → prompt → agent run → quality gate →
  commit → push → callback → cleanup);
* the Quality Gate (`QualityChecker.runAll` / `runTypecheck` / `runTests` /
  `runLint`);
* the HTTP surface of the execution server (`POST /execute`,
  `GET /status/:executionId`).

Stateful TypeScript code is embedded as explicit state passing; external
effects (storage puts, outgoing HTTP fetches, git subprocesses) are recorded
in event traces or supplied as environment values describing the outcome of
the corresponding subprocess/network call.
-/

/-! ## Data model (src types: `Task`, `PRDEntry`, `PRD`, `ProgressEntry`,
`ExecutionRequest`, `ExecutionResult`, `ExecutionState`, `ClaudeRunResult`,
`QualityCheckResult`) -/

/-- The TypeScript `Task` record (the fields the store's handlers read:
`id`, `title`, `description`, `branch`). Named `TaskRecord` because `Task`
is taken by the Lean core library. -/
structure TaskRecord where
  id : String
  title : String
  description : String
  branch : String
  deriving DecidableEq, Repr

/-- Source type `PRDEntry`: one ledger entry per task. -/
structure PRDEntry where
  description : String
  branchName : String
  passes : Bool
  prUrl : Option String
  attempts : Nat
  lastAttemptAt : Option String
  error : Option String
  deriving DecidableEq, Repr

/-- Source type `PRD`: the ledger. JavaScript object `tasks` is embedded as an
association list in insertion order (string-keyed JS objects preserve
insertion order; overwriting an existing key keeps its position). -/
structure PRD where
  projectName : String
  tasks : List (String × PRDEntry)
  version : Nat
  updatedAt : String
  deriving DecidableEq, Repr

/-- Source type `ProgressEntry`: one appended progress-log record. -/
structure ProgressEntry where
  timestamp : String
  taskId : String
  description : String
  learnings : List String
  filesChanged : List String
  deriving DecidableEq, Repr

/-- Source type `ExecutionRequest`: the wire contract sent to the execution server. -/
structure ExecutionRequest where
  taskId : String
  repoUrl : String
  baseBranch : String
  branchName : String
  prompt : String
  maxIterations : Nat
  callbackUrl : String
  deriving DecidableEq, Repr

/-- Source type `ExecutionResult`: the wire contract delivered to the callback URL. -/
structure ExecutionResult where
  taskId : String
  success : Bool
  prUrl : Option String
  error : Option String
  logs : String
  learnings : List String
  testsPass : Bool
  typecheckPass : Bool
  duration : Nat
  deriving DecidableEq, Repr

/-- Source type `ClaudeRunResult`: outcome of one coding-agent run. `ClaudeRunner.run`
catches its own errors and never throws. -/
structure ClaudeRunResult where
  success : Bool
  output : String
  completed : Bool
  iterationsUsed : Nat
  deriving DecidableEq, Repr

/-- Source type `QualityCheckResult`: the quality gate verdict. -/
structure QualityCheckResult where
  typecheck : Bool
  tests : Bool
  lint : Bool
  errors : List String
  deriving DecidableEq, Repr

/-! ## Task State Store (`RalphStateDO`, src/unnamed/part_004) -/

/-- The worker environment fields the Durable Object reads. -/
structure Env where
  VIBE_PROJECT_NAME : String
  GITHUB_REPO_OWNER : String
  GITHUB_REPO_NAME : String
  EXECUTION_SERVER_URL : String
  EXECUTION_SERVER_TOKEN : String
  deriving DecidableEq, Repr

/-- Durable Object storage plus the one-shot alarm: key `prd` (the ledger,
absent before first use), key `progress` (a flat string, `''` when absent,
embedded with the default inlined), and whether an alarm is armed. -/
structure DOState where
  prd : Option PRD
  progress : String
  alarmSet : Bool
  deriving DecidableEq, Repr

/-- Association-list lookup, mirroring `prd.tasks[taskId]`. -/
def lookupTask (ts : List (String × PRDEntry)) (taskId : String) :
    Option PRDEntry :=
  (ts.find? (fun p => p.1 = taskId)).map Prod.snd

/-- JS object assignment `prd.tasks[id] = e`: overwrite in place when the
key exists (keeping its position), otherwise append. -/
def upsertTask (ts : List (String × PRDEntry)) (id : String) (e : PRDEntry) :
    List (String × PRDEntry) :=
  if ts.any (fun p => p.1 = id) then
    ts.map (fun p => if p.1 = id then (id, e) else p)
  else
    ts ++ [(id, e)]

/-- Handler helper `getPRD()`: read the ledger, initializing (and persisting) an empty one
with `version: 1` on first use. `now` stands for `new Date().toISOString()`. -/
def getPRDState (env : Env) (now : String) (s : DOState) : PRD × DOState :=
  match s.prd with
  | some p => (p, s)
  | none =>
    let p : PRD :=
      { projectName := if env.VIBE_PROJECT_NAME = "" then "rocket"
                       else env.VIBE_PROJECT_NAME
        tasks := []
        version := 1
        updatedAt := now }
    (p, { s with prd := some p })

/-- Handler `handleEnqueue`: insert or overwrite the entry with
`passes: false, attempts: 0`, bump `version`, persist, arm the alarm. -/
def handleEnqueue (env : Env) (now : String) (t : TaskRecord) (s : DOState) :
    DOState :=
  let (p, s1) := getPRDState env now s
  let entry : PRDEntry :=
    { description := t.description
      branchName := t.branch
      passes := false
      prUrl := none
      attempts := 0
      lastAttemptAt := none
      error := none }
  let p' : PRD :=
    { p with tasks := upsertTask p.tasks t.id entry
             version := p.version + 1
             updatedAt := now }
  { s1 with prd := some p', alarmSet := true }

/-- Handler responses that the claims distinguish: OK vs `404 Task not
found`. -/
inductive DOResp where
  | ok
  | notFound
  deriving DecidableEq, Repr

/-- Storage helper `appendProgress`: render one progress entry exactly as the source joins
its line array, and append it to the stored progress string. -/
def renderProgressEntry (e : ProgressEntry) : String :=
  String.intercalate "\n"
    ([ "\n## " ++ e.timestamp ++ " - " ++ e.taskId
     , e.description
     , ""
     , "### Learnings" ]
     ++ e.learnings.map (fun l => "- " ++ l)
     ++ [""]
     ++ (if e.filesChanged.length > 0 then
           ["### Files Changed"] ++ e.filesChanged.map (fun f => "- " ++ f)
             ++ [""]
         else []))

/-- Handler `handleComplete`: requires the task to exist (else 404);
sets `passes := result.success`, `prUrl`, `lastAttemptAt`, bumps `version`,
persists; appends one progress entry when `result.learnings` is non-empty. -/
def handleComplete (env : Env) (now : String) (taskId : String)
    (result : ExecutionResult) (s : DOState) : DOState × DOResp :=
  let (p, s1) := getPRDState env now s
  match lookupTask p.tasks taskId with
  | none => (s1, .notFound)
  | some e =>
    let e' : PRDEntry :=
      { e with passes := result.success
               prUrl := result.prUrl
               lastAttemptAt := some now }
    let p' : PRD :=
      { p with tasks := upsertTask p.tasks taskId e'
               version := p.version + 1
               updatedAt := now }
    let s2 : DOState := { s1 with prd := some p' }
    let entry : ProgressEntry :=
      { timestamp := now
        taskId := taskId
        description := e.description
        learnings := result.learnings
        filesChanged := [] }
    if result.learnings.length > 0 then
      ({ s2 with progress := s2.progress ++ renderProgressEntry entry }, .ok)
    else
      (s2, .ok)

/-- Handler `handleFail`: requires the task to exist (else 404, no change); sets
`passes := false`, `error`, `lastAttemptAt`, increments `attempts`, bumps
`version`, persists. -/
def handleFail (env : Env) (now : String) (taskId : String) (errMsg : String)
    (s : DOState) : DOState × DOResp :=
  let (p, s1) := getPRDState env now s
  match lookupTask p.tasks taskId with
  | none => (s1, .notFound)
  | some e =>
    let e' : PRDEntry :=
      { e with passes := false
               error := some errMsg
               lastAttemptAt := some now
               attempts := e.attempts + 1 }
    let p' : PRD :=
      { p with tasks := upsertTask p.tasks taskId e'
               version := p.version + 1
               updatedAt := now }
    ({ s1 with prd := some p' }, .ok)

/-- Dispatch eligibility: `!task.passes && task.attempts < 3`. -/
def eligible (e : PRDEntry) : Bool :=
  !e.passes && decide (e.attempts < 3)

/-- Selection rule of `handleGetNextTask`: first entry, in iteration order, that is
eligible. -/
def nextEligible (ts : List (String × PRDEntry)) : Option (String × PRDEntry) :=
  ts.find? (fun p => eligible p.2)

/-- Increment `attempts` on an entry (the alarm's `task.attempts++`). -/
def bumpAttempts (e : PRDEntry) : PRDEntry :=
  { e with attempts := e.attempts + 1 }

/-- The loop body of `alarm()`: walk the entries in order; at the first
eligible one, increment its `attempts` in place and report the (updated)
task list, the task id and the updated entry; `none` when no entry is
eligible. -/
def bumpFirstEligible :
    List (String × PRDEntry) →
    Option (List (String × PRDEntry) × String × PRDEntry)
  | [] => none
  | (tid, t) :: rest =>
    if eligible t then
      some ((tid, bumpAttempts t) :: rest, tid, bumpAttempts t)
    else
      (bumpFirstEligible rest).map
        (fun x => ((tid, t) :: x.1, x.2.1, x.2.2))

/-- The `ExecutionRequest` the alarm handler posts to the execution server
for a selected task. -/
def mkExecutionRequest (env : Env) (taskId : String) (t : PRDEntry) :
    ExecutionRequest :=
  { taskId := taskId
    repoUrl := "https://github.com/" ++ env.GITHUB_REPO_OWNER ++ "/"
                ++ env.GITHUB_REPO_NAME ++ ".git"
    baseBranch := "main"
    branchName := t.branchName
    prompt := t.description
    maxIterations := 10
    callbackUrl := "https://ralph-coordinator." ++ env.EXECUTION_SERVER_URL
                    ++ "/callbacks/execution" }

/-- Observable effects of one alarm firing: a `storage.put('prd', …)` and an
outgoing `/execute` request, in program order. `setAlarm` would record a
re-arming of the timer (the handler never emits it). -/
inductive AlarmEvent where
  | putPRD (p : PRD)
  | sendRequest (r : ExecutionRequest)
  | setAlarm
  deriving DecidableEq, Repr

/-- Handler `alarm()`: the timer fires (one-shot: firing consumes the arm), loads the
ledger, and for the first eligible entry increments `attempts`, persists the
ledger, and posts one `ExecutionRequest` — then `break`s. The error of the
outgoing fetch is caught and ignored, so the trace records the send
unconditionally. No `version` bump and no re-arming occur in the source. -/
def alarm (env : Env) (now : String) (s : DOState) :
    DOState × List AlarmEvent :=
  let (p, s1) := getPRDState env now s
  let s2 : DOState := { s1 with alarmSet := false }
  match bumpFirstEligible p.tasks with
  | none => (s2, [])
  | some (ts', tid, t') =>
    let p' : PRD := { p with tasks := ts' }
    ({ s2 with prd := some p' },
     [AlarmEvent.putPRD p', AlarmEvent.sendRequest (mkExecutionRequest env tid t')])

/-! ## Execution Agent pipeline (`ExecutionAgent.execute`, src/unnamed/part_002)

Each git/filesystem/subprocess step is supplied as an environment value
describing its outcome: `ok` with its value, or `err` with the message of
the exception it threw. `ClaudeRunner.run` and `QualityChecker.runAll`
catch internally and never throw, so they are plain values;
`GitManager.deleteWorktree` swallows its own errors and never throws. -/

/-- Outcome of one fallible pipeline step: the value it returned, or the
message of the exception it raised. -/
inductive StepResult (α : Type) where
  | ok (a : α)
  | err (msg : String)
  deriving DecidableEq, Repr

/-- Environment of one `execute` run: the outcome of every external step,
plus `extractLearnings(claudeResult.output)` (a regex heuristic over the
subprocess transcript, supplied as a value) and the observed wall-clock
duration. -/
structure ExecEnv where
  cloneOk : StepResult Unit
  worktree : StepResult String
  install : StepResult Unit
  promptFile : StepResult String
  claude : ClaudeRunResult
  extractedLearnings : List String
  quality : QualityCheckResult
  changedFiles : StepResult (List String)
  commitOk : StepResult Unit
  pushOk : StepResult Unit
  gitAuthorName : Option String
  gitAuthorEmail : Option String
  duration : Nat
  deriving DecidableEq, Repr

/-- Observable side effects of one `execute` run, in program order. -/
inductive ExecEvent where
  | commit (message : String)
  | push (branch : String)
  | callback (url : String) (r : ExecutionResult)
  | deleteWorktree (path : String)
  deriving DecidableEq, Repr

/-- Commit message builder `generateCommitMessage`: first line of the task description truncated to
72 characters, the changed-file list, and a co-authorship trailer. -/
def generateCommitMessage (env : ExecEnv) (taskDescription : String)
    (changedFiles : List String) : String :=
  let title := ((taskDescription.splitOn "\n").headD "").take 72
  let authorName := env.gitAuthorName.getD "Ralph Agent"
  let authorEmail := env.gitAuthorEmail.getD "ralph@aicodingbot.dev"
  title ++ "\n\nFiles changed:\n"
    ++ String.intercalate "\n" (changedFiles.map (fun f => "- " ++ f))
    ++ "\n\n🤖 Generated with Ralph Code\n\nCo-Authored-By: "
    ++ authorName ++ " <" ++ authorEmail ++ ">"

/-- The `catch` block of `execute`: build a failure result with
`testsPass: false, typecheckPass: false`, POST it to the callback URL when
one is present (`notifyCallback` swallows its own errors), and return it. -/
def execCatch (req : ExecutionRequest) (msg : String) (logs : String)
    (learnings : List String) (dur : Nat) (evs : List ExecEvent) :
    ExecutionResult × List ExecEvent :=
  let r : ExecutionResult :=
    { taskId := req.taskId
      success := false
      prUrl := none
      error := some msg
      logs := logs
      learnings := learnings
      testsPass := false
      typecheckPass := false
      duration := dur }
  (r, evs ++ (if req.callbackUrl = "" then []
              else [ExecEvent.callback req.callbackUrl r]))

/-- Pipeline `ExecutionAgent.execute`: the pipeline body. Every thrown step jumps to the
catch block with the logs/learnings accumulated so far; the quality-gate
failure branch returns its result directly (without any callback event);
the success branch posts the callback and then deletes the worktree. -/
def execute (env : ExecEnv) (req : ExecutionRequest) :
    ExecutionResult × List ExecEvent :=
  match env.cloneOk with
  | .err m => execCatch req m "" [] env.duration []
  | .ok _ =>
  match env.worktree with
  | .err m => execCatch req m "" [] env.duration []
  | .ok wt =>
  match env.install with
  | .err m => execCatch req m "" [] env.duration []
  | .ok _ =>
  match env.promptFile with
  | .err m => execCatch req m "" [] env.duration []
  | .ok _ =>
  let logs := env.claude.output
  if env.claude.success = false then
    execCatch req "Claude execution failed" logs [] env.duration []
  else
  let learnings := env.extractedLearnings
  if (!env.quality.typecheck || !env.quality.tests) = true then
    ({ taskId := req.taskId
       success := false
       prUrl := none
       error := some ("Quality checks failed: "
                       ++ String.intercalate ", " env.quality.errors)
       logs := logs
       learnings := learnings
       testsPass := env.quality.tests
       typecheckPass := env.quality.typecheck
       duration := env.duration }, [])
  else
  match env.changedFiles with
  | .err m => execCatch req m logs learnings env.duration []
  | .ok files =>
  if files.length = 0 then
    execCatch req "No changes were made" logs learnings env.duration []
  else
  let evs1 := [ExecEvent.commit (generateCommitMessage env req.prompt files)]
  match env.commitOk with
  | .err m => execCatch req m logs learnings env.duration evs1
  | .ok _ =>
  let evs2 := evs1 ++ [ExecEvent.push req.branchName]
  match env.pushOk with
  | .err m => execCatch req m logs learnings env.duration evs2
  | .ok _ =>
  let okResult : ExecutionResult :=
    { taskId := req.taskId
      success := true
      prUrl := none
      error := none
      logs := logs
      learnings := learnings
      testsPass := true
      typecheckPass := true
      duration := env.duration }
  (okResult,
   evs2 ++ (if req.callbackUrl = "" then []
            else [ExecEvent.callback req.callbackUrl okResult])
        ++ [ExecEvent.deleteWorktree wt])

/-! ## Quality Gate (`QualityChecker`, src/execution-server/quality-checks.ts)

Each `execAsync` of a package script is supplied as an outcome: a success
with its stdout, or a thrown error carrying its message (non-zero exit and
timeout both throw; a missing script throws with a message containing
`Missing script`). -/

/-- Outcome of one `execAsync` subprocess call. -/
inductive CmdOutcome where
  | success (stdout : String)
  | failure (message : String)
  deriving DecidableEq, Repr

/-- Environment of one `runAll`: whether `package.json` exists, and the
outcomes of the four commands the checker may run. -/
structure QCEnv where
  packageJsonExists : Bool
  typecheckRun : CmdOutcome
  tscRun : CmdOutcome
  testRun : CmdOutcome
  lintRun : CmdOutcome
  deriving DecidableEq, Repr

/-- Character-list prefix test (structural, kernel-computable). -/
def leadsWith : List Char → List Char → Bool
  | [], _ => true
  | _ :: _, [] => false
  | a :: as, b :: bs => (a = b) && leadsWith as bs

/-- Substring containment over character lists: the needle occurs at some
suffix of the haystack. -/
def containsSub (needle : List Char) : List Char → Bool
  | [] => leadsWith needle []
  | c :: rest => leadsWith needle (c :: rest) || containsSub needle rest

/-- Test mirroring `error.message?.includes('Missing script')`. -/
def mentionsMissingScript (msg : String) : Bool :=
  containsSub "Missing script".data msg.data

/-- Check `runTypecheck`: `npm run typecheck`; on a missing-script error, fall
back to `npx tsc --noEmit`; other errors (and tsc errors) are rethrown. -/
def runTypecheck (env : QCEnv) : StepResult Bool :=
  match env.typecheckRun with
  | .success _ => .ok true
  | .failure m =>
    if mentionsMissingScript m then
      match env.tscRun with
      | .success _ => .ok true
      | .failure m2 => .err m2
    else .err m

/-- Check `runTests`: `npm test`; a missing test script passes vacuously; any
other error is rethrown. -/
def runTests (env : QCEnv) : StepResult Bool :=
  match env.testRun with
  | .success _ => .ok true
  | .failure m => if mentionsMissingScript m then .ok true else .err m

/-- Check `runLint`: `npm run lint`; never fails the gate. -/
def runLint (env : QCEnv) : StepResult Bool :=
  match env.lintRun with
  | .success _ => .ok true
  | .failure _ => .ok true

/-- Aggregate `runAll`: short-circuit when `package.json` is absent; otherwise run
typecheck and tests, recording a wrapped error message for each that
throws, and tolerate lint entirely. -/
def runAll (env : QCEnv) : QualityCheckResult :=
  if env.packageJsonExists = false then
    { typecheck := false, tests := false, lint := false
      errors := ["No package.json found"] }
  else
    let tc : Bool × List String :=
      match runTypecheck env with
      | .ok b => (b, [])
      | .err m => (false, ["Typecheck failed: " ++ m])
    let ts : Bool × List String :=
      match runTests env with
      | .ok b => (b, [])
      | .err m => (false, ["Tests failed: " ++ m])
    let li : Bool :=
      match runLint env with
      | .ok b => b
      | .err _ => true
    { typecheck := tc.1, tests := ts.1, lint := li, errors := tc.2 ++ ts.2 }

/-! ## Execution server HTTP surface (src/execution-server/server.ts)

`exec-${Date.now()}-${Math.random().toString(36).substring(7)}` id
generation is abstracted as a fresh-name supply: a counter from which each
call draws the next value, so distinct calls yield distinct ids. -/

/-- Status enumeration `ExecutionState.status`. -/
inductive ExecStatus where
  | pending
  | running
  | completed
  | failed
  | cancelled
  deriving DecidableEq, Repr

/-- Source type `ExecutionState`: the agent's in-memory record of one execution. -/
structure ExecutionState where
  id : Nat
  taskId : String
  status : ExecStatus
  startedAt : String
  completedAt : Option String
  worktreePath : Option String
  logs : List String
  learnings : List String
  deriving DecidableEq, Repr

/-- The server process state: the agent's `executions` map (association
list) and the fresh-id counter. -/
structure ServerState where
  counter : Nat
  executions : List (Nat × ExecutionState)
  deriving DecidableEq, Repr

/-- One draw from the fresh-id supply: the id and the advanced counter. -/
def generateExecutionId (c : Nat) : Nat × Nat := (c, c + 1)

/-- Entry of `ExecutionAgent.execute` (lines 26–39): generate an internal
execution id and record the initial running state under it. The remainder
of the pipeline mutates this record in place and never adds or removes a
key of the `executions` map. -/
def registerExecution (st : ServerState) (taskId : String) (now : String) :
    Nat × ServerState :=
  let (xid, c') := generateExecutionId st.counter
  (xid,
   { counter := c'
     executions := st.executions ++
       [(xid,
         { id := xid
           taskId := taskId
           status := .running
           startedAt := now
           completedAt := none
           worktreePath := none
           logs := []
           learnings := [] })] })

/-- Endpoint `POST /execute`: reject (400, `none`) when a required field is missing
(falsy); otherwise draw a fresh response id, start `agent.execute` in the
background (which registers its own, independently drawn id), and return
the response id immediately. -/
def postExecute (st : ServerState) (req : ExecutionRequest) (now : String) :
    Option (Nat × ServerState) :=
  if req.taskId = "" ∨ req.repoUrl = "" ∨ req.branchName = "" ∨ req.prompt = ""
  then none
  else
    let (respId, c1) := generateExecutionId st.counter
    let (_, st') := registerExecution { st with counter := c1 } req.taskId now
    some (respId, st')

/-- Lookup `ExecutionAgent.getStatus` / `GET /status/:executionId`: look the id up
in the `executions` map (`null`, a 404, when absent). -/
def getStatus (st : ServerState) (xid : Nat) : Option ExecutionState :=
  (st.executions.find? (fun p => p.1 = xid)).map Prod.snd

/-! ## Derived predicates and concrete fixtures -/

/-- The ledger's stored version, when a ledger exists. -/
def ledgerVersion (s : DOState) : Option Nat := s.prd.map PRD.version

/-- Whether a fallible step returned (rather than threw). -/
def StepResult.isOk {α : Type} : StepResult α → Bool
  | .ok _ => true
  | .err _ => false

/-- The pipeline reaches step 6 (the quality gate) iff steps 1–5 all
succeed (`claudeResult.success = false` raises inside step 5). -/
def reachesQualityGate (env : ExecEnv) : Bool :=
  env.cloneOk.isOk && env.worktree.isOk && env.install.isOk
    && env.promptFile.isOk && env.claude.success

/-- Some step of the run raises an exception. The quality-gate failure
branch is an early `return`, not an exception; `deleteWorktree` and
`notifyCallback` swallow their own errors and never raise. -/
def raisesException (env : ExecEnv) : Bool :=
  if reachesQualityGate env = false then true
  else if (env.quality.typecheck && env.quality.tests) = false then false
  else
    match env.changedFiles with
    | .err _ => true
    | .ok files => files.isEmpty || !env.commitOk.isOk || !env.pushOk.isOk

/-- The run reaches the success exit (callback, cleanup, success result). -/
def reachesSuccess (env : ExecEnv) : Bool :=
  reachesQualityGate env && env.quality.typecheck && env.quality.tests
    && (match env.changedFiles with
        | .ok files => !files.isEmpty
        | .err _ => false)
    && env.commitOk.isOk && env.pushOk.isOk

/-- Recognizer for worktree-deletion events. -/
def isDeleteEvent : ExecEvent → Bool
  | .deleteWorktree _ => true
  | _ => false

/-- Recognizer for outgoing `/execute` requests in an alarm trace. -/
def isSendEvent : AlarmEvent → Bool
  | .sendRequest _ => true
  | _ => false

/-- The ledger still holds a dispatch-eligible entry. -/
def hasEligibleEntry : Option PRD → Bool
  | some p => p.tasks.any (fun x => eligible x.2)
  | none => false

/-- Fixture: worker environment. -/
def env0 : Env :=
  { VIBE_PROJECT_NAME := "proj"
    GITHUB_REPO_OWNER := "owner"
    GITHUB_REPO_NAME := "repo"
    EXECUTION_SERVER_URL := "exec.example"
    EXECUTION_SERVER_TOKEN := "tok" }

/-- Fixture: a fresh ledger entry. -/
def entry0 : PRDEntry :=
  { description := "add a widget"
    branchName := "task/t1"
    passes := false
    prUrl := none
    attempts := 0
    lastAttemptAt := none
    error := none }

/-- Fixture: a second fresh ledger entry. -/
def entry1 : PRDEntry :=
  { description := "fix the gadget"
    branchName := "task/t2"
    passes := false
    prUrl := none
    attempts := 0
    lastAttemptAt := none
    error := none }

/-- Fixture: a one-task ledger. -/
def prd0 : PRD :=
  { projectName := "proj", tasks := [("t1", entry0)], version := 1
    updatedAt := "T0" }

/-- Fixture: store state holding `prd0`. -/
def s0 : DOState := { prd := some prd0, progress := "", alarmSet := true }

/-- Fixture: a two-task ledger, both entries eligible. -/
def prdTwo : PRD :=
  { projectName := "proj", tasks := [("t1", entry0), ("t2", entry1)]
    version := 5, updatedAt := "T0" }

/-- Fixture: store state holding `prdTwo`. -/
def sTwo : DOState := { prd := some prdTwo, progress := "", alarmSet := true }

/-- Fixture: an enqueued task record. -/
def taskT2 : TaskRecord :=
  { id := "t2", title := "Gadget", description := "fix the gadget"
    branch := "task/t2" }

/-- Fixture: a successful execution result with learnings. -/
def resOk : ExecutionResult :=
  { taskId := "t1"
    success := true
    prUrl := some "https://github.com/owner/repo/pull/7"
    error := none
    logs := "done"
    learnings := ["widgets cache gadgets"]
    testsPass := true
    typecheckPass := true
    duration := 42 }

/-- Fixture: an execution request with all required fields present. -/
def req1 : ExecutionRequest :=
  { taskId := "t1"
    repoUrl := "https://github.com/owner/repo.git"
    baseBranch := "main"
    branchName := "task/t1"
    prompt := "add a widget"
    maxIterations := 10
    callbackUrl := "https://cb.example/callbacks/execution" }

/-- Fixture: a successful agent run. -/
def claudeOk : ClaudeRunResult :=
  { success := true, output := "did the thing", completed := true
    iterationsUsed := 3 }

/-- Fixture: an all-pass quality verdict. -/
def qualityPass : QualityCheckResult :=
  { typecheck := true, tests := true, lint := true, errors := [] }

/-- Fixture: a failing quality verdict (typecheck failed). -/
def qualityFail : QualityCheckResult :=
  { typecheck := false, tests := true, lint := true
    errors := ["Typecheck failed: tsc exited 2"] }

/-- Fixture: a pipeline environment in which every step succeeds. -/
def execEnvOk : ExecEnv :=
  { cloneOk := .ok ()
    worktree := .ok "/workspace/rocket/.worktrees/task/t1"
    install := .ok ()
    promptFile := .ok "/workspace/rocket/.worktrees/task/t1/.ralph/prompt.md"
    claude := claudeOk
    extractedLearnings := ["the gadget caches widgets"]
    quality := qualityPass
    changedFiles := .ok ["src/widget.ts"]
    commitOk := .ok ()
    pushOk := .ok ()
    gitAuthorName := none
    gitAuthorEmail := none
    duration := 42 }

/-- Fixture: like `execEnvOk` but the quality gate fails. -/
def execEnvQGFail : ExecEnv := { execEnvOk with quality := qualityFail }

/-- Fixture: like `execEnvOk` but the agent produced no diff. -/
def execEnvNoDiff : ExecEnv := { execEnvOk with changedFiles := .ok [] }

/-- Fixture: project with `package.json` but no test script. -/
def qcEnvNoTestScript : QCEnv :=
  { packageJsonExists := true
    typecheckRun := .success "ok"
    tscRun := .success ""
    testRun := .failure "npm error Missing script: test"
    lintRun := .success "" }

/-- Fixture: project whose test command exits non-zero. -/
def qcEnvFailingTests : QCEnv :=
  { qcEnvNoTestScript with testRun := .failure "Command failed: npm test" }

/-- Fixture: a fresh execution-server state. -/
def serverState0 : ServerState := { counter := 0, executions := [] }

/-- The entry `handleEnqueue` writes for a task: fresh attempt history. -/
def freshEntry (t : TaskRecord) : PRDEntry :=
  { description := t.description
    branchName := t.branch
    passes := false
    prUrl := none
    attempts := 0
    lastAttemptAt := none
    error := none }

/-! ## Helper lemmas -/

theorem lookupTask_upsertTask (ts : List (String × PRDEntry)) (id : String)
    (e : PRDEntry) : lookupTask (upsertTask ts id e) id = some e := by
  unfold upsertTask
  by_cases h : ts.any (fun p => p.1 = id) = true
  · simp only [h, if_true]
    have key : ∀ ts' : List (String × PRDEntry),
        ts'.any (fun p => p.1 = id) = true →
        (ts'.map (fun p => if p.1 = id then (id, e) else p)).find?
          (fun p => p.1 = id) = some (id, e) := by
      intro ts' hts'
      induction ts' with
      | nil => simp at hts'
      | cons hd tl ih =>
        by_cases hh : hd.1 = id
        · simp [hh, List.find?_cons_of_pos]
        · simp only [List.any_cons, Bool.or_eq_true, decide_eq_true_eq] at hts'
          rcases hts' with h1 | h2
          · exact absurd h1 hh
          · simp [hh, List.find?_cons_of_neg, ih h2]
    simp [lookupTask, key ts h]
  · simp only [h, if_false]
    have h' : ts.all (fun p => !(p.1 = id : Bool)) = true := by
      rw [List.all_eq_true]
      intro x hx
      by_contra hc
      apply h
      rw [List.any_eq_true]
      exact ⟨x, hx, by simpa using hc⟩
    have hnone : ts.find? (fun p => p.1 = id) = none := by
      rw [List.find?_eq_none]
      intro x hx
      have := List.all_eq_true.mp h' x hx
      simpa using this
    simp [lookupTask, List.find?_append, hnone]

theorem bumpFirstEligible_of_none :
    ∀ ts : List (String × PRDEntry), nextEligible ts = none →
      bumpFirstEligible ts = none
  | [] => fun _ => rfl
  | (tid, t) :: rest => by
    intro h
    by_cases he : eligible t = true
    · simp [nextEligible, List.find?_cons, he] at h
    · have hrest : nextEligible rest = none := by
        simpa [nextEligible, List.find?_cons, he] using h
      simp [bumpFirstEligible, he, bumpFirstEligible_of_none rest hrest]

theorem bumpFirstEligible_of_some :
    ∀ (ts : List (String × PRDEntry)) (tid : String) (t : PRDEntry),
      nextEligible ts = some (tid, t) →
      ∃ l r, ts = l ++ (tid, t) :: r
        ∧ (∀ x ∈ l, eligible x.2 = false)
        ∧ bumpFirstEligible ts =
            some (l ++ (tid, bumpAttempts t) :: r, tid, bumpAttempts t)
  | [], tid, t => by intro h; simp [nextEligible] at h
  | (a, b) :: rest, tid, t => by
    intro h
    by_cases he : eligible b = true
    · simp only [nextEligible, List.find?_cons, he, if_true] at h
      obtain ⟨ha, hb⟩ := Prod.mk.injEq .. ▸ Option.some_injective _ h
      subst ha; subst hb
      exact ⟨[], rest, rfl, by simp, by simp [bumpFirstEligible, he]⟩
    · have hrest : nextEligible rest = some (tid, t) := by
        simpa [nextEligible, List.find?_cons, he] using h
      obtain ⟨l, r, hts, hl, hbump⟩ :=
        bumpFirstEligible_of_some rest tid t hrest
      refine ⟨(a, b) :: l, r, by simp [hts], ?_, ?_⟩
      · intro x hx
        rcases List.mem_cons.mp hx with h1 | h2
        · simpa [h1] using (Bool.not_eq_true _).mp he
        · exact hl x h2
      · simp [bumpFirstEligible, he, hbump]

theorem enqueue_entry_aux (env : Env) (now : String) (t : TaskRecord)
    (s : DOState) :
    ∃ p', (handleEnqueue env now t s).prd = some p'
      ∧ lookupTask p'.tasks t.id = some (freshEntry t) := by
  cases hs : s.prd with
  | some p =>
    refine ⟨{ p with tasks := upsertTask p.tasks t.id (freshEntry t)
                     version := p.version + 1, updatedAt := now }, ?_, ?_⟩
    · simp [handleEnqueue, getPRDState, hs, freshEntry]
    · simpa using lookupTask_upsertTask p.tasks t.id (freshEntry t)
  | none =>
    refine ⟨{ projectName := if env.VIBE_PROJECT_NAME = "" then "rocket"
                             else env.VIBE_PROJECT_NAME
              tasks := upsertTask [] t.id (freshEntry t)
              version := 2, updatedAt := now }, ?_, ?_⟩
    · simp [handleEnqueue, getPRDState, hs, freshEntry]
    · simpa using lookupTask_upsertTask [] t.id (freshEntry t)

/-! ## Claim theorems -/

/-- C1 (counterexample): the alarm handler mutates a stored ledger entry
(`attempts` 0 → 1) and persists the ledger, yet the stored `version` after
the firing equals the `version` before it — refuting "every mutation of the
Ledger increments its version" for the timer-driven attempts increment. -/
theorem ledger_version_not_bumped_by_alarm_cex :
    (alarm env0 "T1" s0).1.prd
      = some { prd0 with tasks := [("t1", bumpAttempts entry0)] }
    ∧ ({ prd0 with tasks := [("t1", bumpAttempts entry0)] } : PRD).version
      = prd0.version
    ∧ ([("t1", bumpAttempts entry0)] : List (String × PRDEntry)) ≠ prd0.tasks := by
  refine ⟨by decide, rfl, by decide⟩

/-- C1 (amended): `enqueue`, and `complete`/`fail` on an existing task,
each increment the stored ledger version by exactly one; the alarm
handler's attempts increment persists the ledger with its version
unchanged. -/
theorem ledger_version_increment_spec (env : Env) (now : String)
    (t : TaskRecord) (taskId errMsg : String) (res : ExecutionResult)
    (s : DOState) (p : PRD) (hp : s.prd = some p) :
    ledgerVersion (handleEnqueue env now t s) = some (p.version + 1)
    ∧ (lookupTask p.tasks taskId ≠ none →
        ledgerVersion (handleComplete env now taskId res s).1
          = some (p.version + 1))
    ∧ (lookupTask p.tasks taskId ≠ none →
        ledgerVersion (handleFail env now taskId errMsg s).1
          = some (p.version + 1))
    ∧ ledgerVersion (alarm env now s).1 = some p.version := by
  refine ⟨?_, ?_, ?_, ?_⟩
  · simp [handleEnqueue, getPRDState, hp, ledgerVersion]
  · intro hl
    cases hc : lookupTask p.tasks taskId with
    | none => exact absurd hc hl
    | some e =>
      simp only [handleComplete, getPRDState, hp, hc, ledgerVersion]
      split <;> simp
  · intro hl
    cases hc : lookupTask p.tasks taskId with
    | none => exact absurd hc hl
    | some e =>
      simp [handleFail, getPRDState, hp, hc, ledgerVersion]
  · cases hb : bumpFirstEligible p.tasks with
    | none => simp [alarm, getPRDState, hp, hb, ledgerVersion]
    | some x => simp [alarm, getPRDState, hp, hb, ledgerVersion]

/-- C1 (witness for the amended theorem at a concrete input). -/
theorem ledger_version_increment_spec_witness :
    s0.prd = some prd0
    ∧ (ledgerVersion (handleEnqueue env0 "T1" taskT2 s0)
         = some (prd0.version + 1)
       ∧ (lookupTask prd0.tasks "t1" ≠ none →
           ledgerVersion (handleComplete env0 "T1" "t1" resOk s0).1
             = some (prd0.version + 1))
       ∧ (lookupTask prd0.tasks "t1" ≠ none →
           ledgerVersion (handleFail env0 "T1" "t1" "boom" s0).1
             = some (prd0.version + 1))
       ∧ ledgerVersion (alarm env0 "T1" s0).1 = some prd0.version) :=
  ⟨rfl, ledger_version_increment_spec env0 "T1" taskT2 "t1" "boom" resOk s0
          prd0 rfl⟩

/-- C4 (counterexample): after a dispatch firing on a ledger with two
eligible entries, eligible work remains, yet no dispatch timer is armed:
the resulting alarm is unarmed and the trace holds no `setAlarm` — refuting
"the dispatch timer re-arms itself while eligible work exists". -/
theorem alarm_no_rearm_cex :
    hasEligibleEntry (alarm env0 "T1" sTwo).1.prd = true
    ∧ (alarm env0 "T1" sTwo).1.alarmSet = false
    ∧ AlarmEvent.setAlarm ∉ (alarm env0 "T1" sTwo).2 := by
  refine ⟨by decide, by decide, by decide⟩

/-- C4 (amended): a dispatch timer is armed only by `enqueue`: the alarm
handler never re-arms (after any firing the timer is unarmed and the trace
holds no `setAlarm`, whatever the ledger contains), while every `enqueue`
leaves the timer armed. -/
theorem dispatch_timer_armed_only_by_enqueue (env : Env) (now : String)
    (t : TaskRecord) (s : DOState) :
    (alarm env now s).1.alarmSet = false
    ∧ AlarmEvent.setAlarm ∉ (alarm env now s).2
    ∧ (handleEnqueue env now t s).alarmSet = true := by
  refine ⟨?_, ?_, ?_⟩
  · cases hs : s.prd with
    | some p =>
      cases hb : bumpFirstEligible p.tasks with
      | none => simp [alarm, getPRDState, hs, hb]
      | some x => simp [alarm, getPRDState, hs, hb]
    | none => simp [alarm, getPRDState, hs, bumpFirstEligible]
  · cases hs : s.prd with
    | some p =>
      cases hb : bumpFirstEligible p.tasks with
      | none => simp [alarm, getPRDState, hs, hb]
      | some x => simp [alarm, getPRDState, hs, hb]
    | none => simp [alarm, getPRDState, hs, bumpFirstEligible]
  · cases hs : s.prd with
    | some p => simp [handleEnqueue, getPRDState, hs]
    | none => simp [handleEnqueue, getPRDState, hs]

/-- C7: `enqueue` of a task overwrites (or inserts) its ledger entry with a
fresh history — `passes = false`, `attempts = 0`, and cleared
`prUrl`/`error`/`lastAttemptAt` — whatever the previous entry held; in
particular `enqueue` immediately followed by `enqueue` of the same task
leaves `attempts = 0` and `passes = false`. -/
theorem enqueue_resets_entry (env : Env) (now now2 : String)
    (t : TaskRecord) (s : DOState) :
    (∃ p', (handleEnqueue env now t s).prd = some p'
        ∧ lookupTask p'.tasks t.id = some (freshEntry t))
    ∧ (∃ p'', (handleEnqueue env now2 t (handleEnqueue env now t s)).prd
          = some p''
        ∧ lookupTask p''.tasks t.id = some (freshEntry t)
        ∧ (freshEntry t).attempts = 0 ∧ (freshEntry t).passes = false) := by
  refine ⟨enqueue_entry_aux env now t s, ?_⟩
  obtain ⟨p'', h1, h2⟩ :=
    enqueue_entry_aux env now2 t (handleEnqueue env now t s)
  exact ⟨p'', h1, h2, rfl, rfl⟩

/-- C3: one alarm firing dispatches at most one task: when some entry is
eligible, the handler selects the first one in ledger order (every entry
before it is ineligible), increments exactly that entry's `attempts` and
persists the ledger (the `putPRD` event) before the outgoing
`ExecutionRequest`, and the trace holds exactly one send; when no entry is
eligible, the firing sends nothing and leaves ledger and progress log
unchanged. -/
theorem alarm_dispatch_spec (env : Env) (now : String) (s : DOState)
    (p : PRD) (hp : s.prd = some p) :
    (∀ tid t, nextEligible p.tasks = some (tid, t) →
      ∃ l r, p.tasks = l ++ (tid, t) :: r
        ∧ (∀ x ∈ l, eligible x.2 = false)
        ∧ alarm env now s =
            ({ s with
                prd := some { p with tasks := l ++ (tid, bumpAttempts t) :: r }
                alarmSet := false },
             [AlarmEvent.putPRD
                { p with tasks := l ++ (tid, bumpAttempts t) :: r },
              AlarmEvent.sendRequest
                (mkExecutionRequest env tid (bumpAttempts t))]))
    ∧ (nextEligible p.tasks = none →
        alarm env now s = ({ s with alarmSet := false }, [])) := by
  constructor
  · intro tid t hfind
    obtain ⟨l, r, hts, hl, hbump⟩ :=
      bumpFirstEligible_of_some p.tasks tid t hfind
    refine ⟨l, r, hts, hl, ?_⟩
    simp [alarm, getPRDState, hp, hbump]
  · intro hnone
    simp [alarm, getPRDState, hp, bumpFirstEligible_of_none p.tasks hnone]

/-- C3 (witness at a concrete input: a one-task ledger whose entry is
eligible). -/
theorem alarm_dispatch_spec_witness :
    s0.prd = some prd0
    ∧ ((∀ tid t, nextEligible prd0.tasks = some (tid, t) →
        ∃ l r, prd0.tasks = l ++ (tid, t) :: r
          ∧ (∀ x ∈ l, eligible x.2 = false)
          ∧ alarm env0 "T1" s0 =
              ({ s0 with
                  prd := some
                    { prd0 with tasks := l ++ (tid, bumpAttempts t) :: r }
                  alarmSet := false },
               [AlarmEvent.putPRD
                  { prd0 with tasks := l ++ (tid, bumpAttempts t) :: r },
                AlarmEvent.sendRequest
                  (mkExecutionRequest env0 tid (bumpAttempts t))]))
      ∧ (nextEligible prd0.tasks = none →
          alarm env0 "T1" s0 = ({ s0 with alarmSet := false }, []))) :=
  ⟨rfl, alarm_dispatch_spec env0 "T1" s0 prd0 rfl⟩

/-- C8: `complete(taskId, result)` on an existing task returns OK and sets
`passes := result.success`, `prUrl := result.prUrl` and `lastAttemptAt`,
leaving `attempts` (and `description`, `branchName`, `error`) unchanged; it
appends exactly one rendered progress entry holding the result's learnings
when they are non-empty and leaves the progress log unchanged when they are
empty; on an unknown task id it returns NotFound and changes nothing. -/
theorem complete_spec (env : Env) (now taskId : String)
    (res : ExecutionResult) (s : DOState) (p : PRD) (hp : s.prd = some p) :
    (∀ e, lookupTask p.tasks taskId = some e →
      ∃ p', (handleComplete env now taskId res s).1.prd = some p'
        ∧ (handleComplete env now taskId res s).2 = DOResp.ok
        ∧ lookupTask p'.tasks taskId = some
            { description := e.description
              branchName := e.branchName
              passes := res.success
              prUrl := res.prUrl
              attempts := e.attempts
              lastAttemptAt := some now
              error := e.error }
        ∧ (res.learnings ≠ [] →
            (handleComplete env now taskId res s).1.progress
              = s.progress ++ renderProgressEntry
                  { timestamp := now
                    taskId := taskId
                    description := e.description
                    learnings := res.learnings
                    filesChanged := [] })
        ∧ (res.learnings = [] →
            (handleComplete env now taskId res s).1.progress = s.progress))
    ∧ (lookupTask p.tasks taskId = none →
        handleComplete env now taskId res s = (s, DOResp.notFound)) := by
  constructor
  · intro e he
    refine ⟨{ p with
        tasks := upsertTask p.tasks taskId
          { e with passes := res.success
                   prUrl := res.prUrl
                   lastAttemptAt := some now }
        version := p.version + 1
        updatedAt := now }, ?_, ?_, ?_, ?_, ?_⟩
    · by_cases hlearn : res.learnings = []
      · simp [handleComplete, getPRDState, hp, he, hlearn]
      · simp [handleComplete, getPRDState, hp, he, hlearn,
              List.length_pos.mpr hlearn]
    · by_cases hlearn : res.learnings = []
      · simp [handleComplete, getPRDState, hp, he, hlearn]
      · simp [handleComplete, getPRDState, hp, he, hlearn,
              List.length_pos.mpr hlearn]
    · simpa using lookupTask_upsertTask p.tasks taskId
        { e with passes := res.success
                 prUrl := res.prUrl
                 lastAttemptAt := some now }
    · intro hlearn
      simp [handleComplete, getPRDState, hp, he, hlearn,
            List.length_pos.mpr hlearn]
    · intro hlearn
      simp [handleComplete, getPRDState, hp, he, hlearn]
  · intro hnone
    simp [handleComplete, getPRDState, hp, hnone]

/-- C8 (witness at a concrete input: completing the existing task `t1` with
a successful result carrying one learning). -/
theorem complete_spec_witness :
    s0.prd = some prd0
    ∧ ((∀ e, lookupTask prd0.tasks "t1" = some e →
        ∃ p', (handleComplete env0 "T1" "t1" resOk s0).1.prd = some p'
          ∧ (handleComplete env0 "T1" "t1" resOk s0).2 = DOResp.ok
          ∧ lookupTask p'.tasks "t1" = some
              { description := e.description
                branchName := e.branchName
                passes := resOk.success
                prUrl := resOk.prUrl
                attempts := e.attempts
                lastAttemptAt := some "T1"
                error := e.error }
          ∧ (resOk.learnings ≠ [] →
              (handleComplete env0 "T1" "t1" resOk s0).1.progress
                = s0.progress ++ renderProgressEntry
                    { timestamp := "T1"
                      taskId := "t1"
                      description := e.description
                      learnings := resOk.learnings
                      filesChanged := [] })
          ∧ (resOk.learnings = [] →
              (handleComplete env0 "T1" "t1" resOk s0).1.progress
                = s0.progress))
      ∧ (lookupTask prd0.tasks "t1" = none →
          handleComplete env0 "T1" "t1" resOk s0 = (s0, DOResp.notFound))) :=
  ⟨rfl, complete_spec env0 "T1" "t1" resOk s0 prd0 rfl⟩

/-- C2: when steps 1–5 succeed and the quality gate reports a typecheck or
test failure, `execute` aborts with a failure result whose error carries
the gate's failure reasons — and the event trace is empty: no commit, no
push, no worktree deletion, and, diverging from the specification, no
callback delivery either (the failure result is only returned to the
caller, which the HTTP endpoint discards). -/
theorem quality_gate_failure_skips_callback (env : ExecEnv)
    (req : ExecutionRequest)
    (hreach : reachesQualityGate env = true)
    (hfail : (env.quality.typecheck && env.quality.tests) = false) :
    execute env req =
      ({ taskId := req.taskId
         success := false
         prUrl := none
         error := some ("Quality checks failed: "
                         ++ String.intercalate ", " env.quality.errors)
         logs := env.claude.output
         learnings := env.extractedLearnings
         testsPass := env.quality.tests
         typecheckPass := env.quality.typecheck
         duration := env.duration }, []) := by
  obtain ⟨co, wt, ins, pf, cl, ex, q, cf, cm, pu, an, ae, d⟩ := env
  cases co with
  | err m => simp [reachesQualityGate, StepResult.isOk] at hreach
  | ok u =>
  cases wt with
  | err m => simp [reachesQualityGate, StepResult.isOk] at hreach
  | ok wtp =>
  cases ins with
  | err m => simp [reachesQualityGate, StepResult.isOk] at hreach
  | ok v =>
  cases pf with
  | err m => simp [reachesQualityGate, StepResult.isOk] at hreach
  | ok pfp =>
  have hcl : cl.success = true := by
    simpa [reachesQualityGate, StepResult.isOk] using hreach
  have hfail' : (q.typecheck && q.tests) = false := by simpa using hfail
  have hcond : (!q.typecheck || !q.tests) = true := by
    rcases Bool.and_eq_false_iff.mp hfail' with h | h <;> simp [h]
  simp [execute, hcl, hcond]

/-- C2 (witness: the concrete quality-gate-failure environment). -/
theorem quality_gate_failure_skips_callback_witness :
    reachesQualityGate execEnvQGFail = true
    ∧ (execEnvQGFail.quality.typecheck && execEnvQGFail.quality.tests) = false
    ∧ execute execEnvQGFail req1 =
        ({ taskId := req1.taskId
           success := false
           prUrl := none
           error := some ("Quality checks failed: "
                           ++ String.intercalate ", "
                               execEnvQGFail.quality.errors)
           logs := execEnvQGFail.claude.output
           learnings := execEnvQGFail.extractedLearnings
           testsPass := execEnvQGFail.quality.tests
           typecheckPass := execEnvQGFail.quality.typecheck
           duration := execEnvQGFail.duration }, []) :=
  ⟨by decide, by decide,
   quality_gate_failure_skips_callback execEnvQGFail req1 (by decide)
     (by decide)⟩

/-- Properties of every result the catch block produces. -/
theorem execCatch_props (req : ExecutionRequest) (msg logs : String)
    (lrn : List String) (dur : Nat) (evs : List ExecEvent) :
    (execCatch req msg logs lrn dur evs).1.success = false
    ∧ (execCatch req msg logs lrn dur evs).1.testsPass = false
    ∧ (execCatch req msg logs lrn dur evs).1.typecheckPass = false
    ∧ (execCatch req msg logs lrn dur evs).1.error = some msg
    ∧ (req.callbackUrl ≠ "" →
        ExecEvent.callback req.callbackUrl (execCatch req msg logs lrn dur evs).1
          ∈ (execCatch req msg logs lrn dur evs).2) := by
  refine ⟨rfl, rfl, rfl, rfl, ?_⟩
  intro hcb
  simp [execCatch, hcb]

/-- The catch block adds only a callback event, so it introduces no
worktree deletion. -/
theorem execCatch_no_delete (req : ExecutionRequest) (msg logs : String)
    (lrn : List String) (dur : Nat) (evs : List ExecEvent)
    (h : evs.any isDeleteEvent = false) :
    (execCatch req msg logs lrn dur evs).2.any isDeleteEvent = false := by
  simp only [execCatch, List.any_append, h, Bool.false_or]
  split <;> rfl

/-- Every run of `execute` ends in exactly one of three ways: the catch
block (some step raised), the quality-gate early return (empty trace), or
the success exit (whose trace ends with the worktree deletion and holds no
other deletion). -/
theorem execute_cases (env : ExecEnv) (req : ExecutionRequest) :
    (raisesException env = true ∧ reachesSuccess env = false ∧
      ∃ msg logs lrn evs0,
        execute env req = execCatch req msg logs lrn env.duration evs0
        ∧ evs0.any isDeleteEvent = false)
    ∨ (raisesException env = false ∧ reachesSuccess env = false ∧
        (execute env req).2 = [])
    ∨ (raisesException env = false ∧ reachesSuccess env = true ∧
        ∃ wtp evs0, env.worktree = StepResult.ok wtp
          ∧ (execute env req).2 = evs0 ++ [ExecEvent.deleteWorktree wtp]
          ∧ evs0.any isDeleteEvent = false) := by
  obtain ⟨co, wt, ins, pf, cl, ex, q, cf, cm, pu, an, ae, d⟩ := env
  cases co with
  | err m =>
    exact Or.inl ⟨rfl, rfl, m, "", [], [], rfl, rfl⟩
  | ok u =>
  cases wt with
  | err m =>
    exact Or.inl ⟨rfl, rfl, m, "", [], [], rfl, rfl⟩
  | ok wtp =>
  cases ins with
  | err m =>
    exact Or.inl ⟨rfl, rfl, m, "", [], [], rfl, rfl⟩
  | ok v =>
  cases pf with
  | err m =>
    exact Or.inl ⟨rfl, rfl, m, "", [], [], rfl, rfl⟩
  | ok pfp =>
  cases hcs : cl.success with
  | false =>
    refine Or.inl ⟨?_, ?_, "Claude execution failed", cl.output, [], [], ?_, rfl⟩
    · simp [raisesException, reachesQualityGate, StepResult.isOk, hcs]
    · simp [reachesSuccess, reachesQualityGate, StepResult.isOk, hcs]
    · simp [execute, hcs]
  | true =>
  cases hgate : q.typecheck && q.tests with
  | false =>
    refine Or.inr (Or.inl ⟨?_, ?_, ?_⟩)
    · simp [raisesException, reachesQualityGate, StepResult.isOk, hcs, hgate]
    · rcases Bool.and_eq_false_iff.mp hgate with hq | hq <;>
        simp [reachesSuccess, reachesQualityGate, StepResult.isOk, hcs, hq]
    · have hcond : (!q.typecheck || !q.tests) = true := by
        rcases Bool.and_eq_false_iff.mp hgate with hq | hq <;> simp [hq]
      simp [execute, hcs, hcond]
  | true =>
  have hboth : q.typecheck = true ∧ q.tests = true := by simpa using hgate
  obtain ⟨hta, htb⟩ := hboth
  cases cf with
  | err m =>
    refine Or.inl ⟨?_, ?_, m, cl.output, ex, [], ?_, rfl⟩
    · simp [raisesException, reachesQualityGate, StepResult.isOk, hcs, hgate]
    · simp [reachesSuccess, reachesQualityGate, StepResult.isOk, hcs,
            hta, htb]
    · simp [execute, hcs, hta, htb]
  | ok files =>
  by_cases hlen : files.length = 0
  · have hfe : files = [] := List.length_eq_zero.mp hlen
    subst hfe
    refine Or.inl ⟨?_, ?_, "No changes were made", cl.output, ex, [], ?_, rfl⟩
    · simp [raisesException, reachesQualityGate, StepResult.isOk, hcs, hgate]
    · simp [reachesSuccess, reachesQualityGate, StepResult.isOk, hcs,
            hta, htb]
    · simp [execute, hcs, hta, htb]
  · have hne : files.isEmpty = false := by
      cases files with
      | nil => simp at hlen
      | cons a l => rfl
    cases cm with
    | err m =>
      refine Or.inl ⟨?_, ?_, m, cl.output, ex,
        [ExecEvent.commit (generateCommitMessage
          { cloneOk := StepResult.ok u, worktree := StepResult.ok wtp
            install := StepResult.ok v, promptFile := StepResult.ok pfp
            claude := cl, extractedLearnings := ex, quality := q
            changedFiles := StepResult.ok files, commitOk := StepResult.err m
            pushOk := pu, gitAuthorName := an, gitAuthorEmail := ae
            duration := d } req.prompt files)], ?_, rfl⟩
      · simp [raisesException, reachesQualityGate, StepResult.isOk, hcs,
              hgate, hne]
      · simp [reachesSuccess, reachesQualityGate, StepResult.isOk, hcs,
              hta, htb]
      · simp [execute, hcs, hta, htb, hlen]
    | ok cu =>
    cases pu with
    | err m =>
      refine Or.inl ⟨?_, ?_, m, cl.output, ex,
        [ExecEvent.commit (generateCommitMessage
          { cloneOk := StepResult.ok u, worktree := StepResult.ok wtp
            install := StepResult.ok v, promptFile := StepResult.ok pfp
            claude := cl, extractedLearnings := ex, quality := q
            changedFiles := StepResult.ok files, commitOk := StepResult.ok cu
            pushOk := StepResult.err m, gitAuthorName := an
            gitAuthorEmail := ae, duration := d } req.prompt files),
         ExecEvent.push req.branchName], ?_, rfl⟩
      · simp [raisesException, reachesQualityGate, StepResult.isOk, hcs,
              hgate, hne]
      · simp [reachesSuccess, reachesQualityGate, StepResult.isOk, hcs,
              hta, htb]
      · simp [execute, hcs, hta, htb, hlen]
    | ok puu =>
      refine Or.inr (Or.inr ⟨?_, ?_, wtp,
        [ExecEvent.commit (generateCommitMessage
          { cloneOk := StepResult.ok u, worktree := StepResult.ok wtp
            install := StepResult.ok v, promptFile := StepResult.ok pfp
            claude := cl, extractedLearnings := ex, quality := q
            changedFiles := StepResult.ok files, commitOk := StepResult.ok cu
            pushOk := StepResult.ok puu, gitAuthorName := an
            gitAuthorEmail := ae, duration := d } req.prompt files),
         ExecEvent.push req.branchName]
          ++ (if req.callbackUrl = "" then []
              else [ExecEvent.callback req.callbackUrl
                (execute
                  { cloneOk := StepResult.ok u, worktree := StepResult.ok wtp
                    install := StepResult.ok v
                    promptFile := StepResult.ok pfp, claude := cl
                    extractedLearnings := ex, quality := q
                    changedFiles := StepResult.ok files
                    commitOk := StepResult.ok cu, pushOk := StepResult.ok puu
                    gitAuthorName := an, gitAuthorEmail := ae
                    duration := d } req).1]), rfl, ?_, ?_⟩)
      · simp [raisesException, reachesQualityGate, StepResult.isOk, hcs,
              hgate, hne]
      · simp [reachesSuccess, reachesQualityGate, StepResult.isOk, hcs,
              hta, htb, hne]
      · simp [execute, hcs, hta, htb, hlen]
      · simp [List.any_append, isDeleteEvent]

/-- C5 (counterexample): in the no-diff run the quality gate has already
passed (`tests = true`, `typecheck = true`), yet the caught exception's
failure result reports `testsPass = false` and `typecheckPass = false` —
refuting "testsPass and typecheckPass reflect what was known at the
failure point (e.g. true when the quality gate had already passed)". -/
theorem exception_result_flags_cex :
    execEnvNoDiff.quality.tests = true
    ∧ execEnvNoDiff.quality.typecheck = true
    ∧ (execute execEnvNoDiff req1).1.success = false
    ∧ (execute execEnvNoDiff req1).1.error = some "No changes were made"
    ∧ (execute execEnvNoDiff req1).1.testsPass = false
    ∧ (execute execEnvNoDiff req1).1.typecheckPass = false := by
  refine ⟨rfl, rfl, by decide, by decide, by decide, by decide⟩

/-- C5 (amended): whenever some pipeline step raises an exception,
`execute` (a total function — no exception escapes) catches it and returns
a failure result with `success = false`, a non-empty error, and
`testsPass = typecheckPass = false` regardless of what the quality gate had
reported, and delivers exactly that result to the callback URL when the
request carries one. -/
theorem execute_exception_handling (env : ExecEnv) (req : ExecutionRequest)
    (h : raisesException env = true) :
    (execute env req).1.success = false
    ∧ (execute env req).1.testsPass = false
    ∧ (execute env req).1.typecheckPass = false
    ∧ (execute env req).1.error ≠ none
    ∧ (req.callbackUrl ≠ "" →
        ExecEvent.callback req.callbackUrl (execute env req).1
          ∈ (execute env req).2) := by
  rcases execute_cases env req with
      ⟨_, _, msg, logs, lrn, evs0, hexec, _⟩ | ⟨hra, _, _⟩ | ⟨hra, _, _⟩
  · rw [hexec]
    have hp := execCatch_props req msg logs lrn env.duration evs0
    exact ⟨hp.1, hp.2.1, hp.2.2.1, by simp [hp.2.2.2.1], hp.2.2.2.2⟩
  · rw [hra] at h; exact absurd h (by simp)
  · rw [hra] at h; exact absurd h (by simp)

/-- C5 (witness: the concrete no-diff environment, which raises). -/
theorem execute_exception_handling_witness :
    raisesException execEnvNoDiff = true
    ∧ ((execute execEnvNoDiff req1).1.success = false
       ∧ (execute execEnvNoDiff req1).1.testsPass = false
       ∧ (execute execEnvNoDiff req1).1.typecheckPass = false
       ∧ (execute execEnvNoDiff req1).1.error ≠ none
       ∧ (req1.callbackUrl ≠ "" →
           ExecEvent.callback req1.callbackUrl (execute execEnvNoDiff req1).1
             ∈ (execute execEnvNoDiff req1).2)) :=
  ⟨by decide, execute_exception_handling execEnvNoDiff req1 (by decide)⟩

/-- C6 (counterexample): a run that exits on quality-gate failure leaves
the worktree in place — its trace holds no `deleteWorktree` event — refuting
"the worktree is deleted on every exit path". -/
theorem worktree_not_deleted_on_gate_failure_cex :
    execEnvQGFail.worktree
      = StepResult.ok "/workspace/rocket/.worktrees/task/t1"
    ∧ (execute execEnvQGFail req1).1.error
      = some "Quality checks failed: Typecheck failed: tsc exited 2"
    ∧ (execute execEnvQGFail req1).2.any isDeleteEvent = false := by
  refine ⟨rfl, by decide, by decide⟩

/-- C6 (amended): the worktree is deleted exactly on the success exit path:
a successful run's trace deletes the created worktree, while a run that
exits on quality-gate failure or via the catch block performs no worktree
deletion (the directory is left on disk). -/
theorem worktree_delete_only_on_success (env : ExecEnv)
    (req : ExecutionRequest) :
    (reachesSuccess env = true →
      ∀ wt0, env.worktree = StepResult.ok wt0 →
        ExecEvent.deleteWorktree wt0 ∈ (execute env req).2)
    ∧ (reachesSuccess env = false →
        (execute env req).2.any isDeleteEvent = false) := by
  constructor
  · intro hs wt0 hwt
    rcases execute_cases env req with
        ⟨_, hsf, _⟩ | ⟨_, hsf, _⟩ | ⟨_, _, wtp, evs0, hwt', hevs, _⟩
    · rw [hs] at hsf; cases hsf
    · rw [hs] at hsf; cases hsf
    · rw [hwt] at hwt'
      have hwteq : wt0 = wtp := by
        injection hwt'
      subst hwteq
      rw [hevs]
      simp
  · intro hs
    rcases execute_cases env req with
        ⟨_, _, msg, logs, lrn, evs0, hexec, hany⟩ | ⟨_, _, hevs⟩ |
        ⟨_, hst, _⟩
    · rw [hexec]
      exact execCatch_no_delete req msg logs lrn env.duration evs0 hany
    · rw [hevs]; rfl
    · rw [hs] at hst; cases hst

/-- C6 (witness: the all-success environment deletes its worktree, and a
gate-failure environment deletes none). -/
theorem worktree_delete_only_on_success_witness :
    reachesSuccess execEnvOk = true
    ∧ execEnvOk.worktree
        = StepResult.ok "/workspace/rocket/.worktrees/task/t1"
    ∧ ExecEvent.deleteWorktree "/workspace/rocket/.worktrees/task/t1"
        ∈ (execute execEnvOk req1).2
    ∧ reachesSuccess execEnvQGFail = false
    ∧ (execute execEnvQGFail req1).2.any isDeleteEvent = false :=
  ⟨by decide, rfl,
   (worktree_delete_only_on_success execEnvOk req1).1 (by decide)
     "/workspace/rocket/.worktrees/task/t1" rfl,
   by decide,
   (worktree_delete_only_on_success execEnvQGFail req1).2 (by decide)⟩

/-- C9: with `package.json` present, a missing test script makes the gate
report `tests = true` (vacuous pass), while a test command that exits
non-zero (whose thrown message does not mention a missing script) makes it
report `tests = false` with a `Tests failed: …` entry in the error list. -/
theorem runAll_tests_spec (env : QCEnv)
    (hpkg : env.packageJsonExists = true) :
    (∀ m, env.testRun = CmdOutcome.failure m →
      mentionsMissingScript m = true → (runAll env).tests = true)
    ∧ (∀ m, env.testRun = CmdOutcome.failure m →
        mentionsMissingScript m = false →
        (runAll env).tests = false
        ∧ ("Tests failed: " ++ m) ∈ (runAll env).errors) := by
  constructor
  · intro m hm hmiss
    simp [runAll, hpkg, runTests, hm, hmiss]
  · intro m hm hmiss
    constructor
    · simp [runAll, hpkg, runTests, hm, hmiss]
    · simp [runAll, hpkg, runTests, hm, hmiss]

/-- C9 (witness: a project with no test script passes vacuously; one with
failing tests fails with a recorded error). -/
theorem runAll_tests_spec_witness :
    qcEnvNoTestScript.packageJsonExists = true
    ∧ (runAll qcEnvNoTestScript).tests = true
    ∧ (runAll qcEnvFailingTests).tests = false
    ∧ ("Tests failed: " ++ "Command failed: npm test")
        ∈ (runAll qcEnvFailingTests).errors :=
  ⟨rfl,
   (runAll_tests_spec qcEnvNoTestScript rfl).1
     "npm error Missing script: test" rfl (by decide),
   ((runAll_tests_spec qcEnvFailingTests rfl).2
     "Command failed: npm test" rfl (by decide)).1,
   ((runAll_tests_spec qcEnvFailingTests rfl).2
     "Command failed: npm test" rfl (by decide)).2⟩

/-- C10: for an accepted `POST /execute`, the `executionId` returned in the
HTTP response is drawn independently of the id under which the agent
records the execution, so (keys being fresh draws, all below the counter)
the returned id is never a key of the `executions` map and
`GET /status/<returned id>` reports not-found; the key-bound invariant is
preserved. -/
theorem status_of_returned_execution_id (st : ServerState)
    (req : ExecutionRequest) (now : String) (rid : Nat) (st' : ServerState)
    (hkeys : ∀ q ∈ st.executions, q.1 < st.counter)
    (hpost : postExecute st req now = some (rid, st')) :
    getStatus st' rid = none
    ∧ (∀ q ∈ st'.executions, q.1 < st'.counter) := by
  unfold postExecute at hpost
  by_cases hv : req.taskId = "" ∨ req.repoUrl = "" ∨ req.branchName = ""
      ∨ req.prompt = ""
  · simp [hv] at hpost
  · simp only [hv, if_false, registerExecution, generateExecutionId] at hpost
    have hpair := Option.some_injective _ hpost
    have hrid : st.counter = rid := congrArg Prod.fst hpair
    have hst : _ = st' := congrArg Prod.snd hpair
    subst hrid
    rw [← hst]
    constructor
    · unfold getStatus
      have h1 : st.executions.find? (fun p => p.1 = st.counter) = none := by
        rw [List.find?_eq_none]
        intro x hx
        have := hkeys x hx
        simp only [decide_eq_true_eq]
        omega
      have h2 : ∀ y : ExecutionState,
          List.find? (fun p => decide (p.1 = st.counter))
            [(st.counter + 1, y)] = none := by
        intro y
        rw [List.find?_eq_none]
        intro x hx
        simp only [List.mem_singleton] at hx
        subst hx
        simp only [decide_eq_true_eq]
        omega
      simp only [List.find?_append, h1, Option.none_or, h2, Option.map_none']
    · intro x hx
      simp only [List.mem_append, List.mem_singleton] at hx
      rcases hx with hx | hx
      · have := hkeys x hx
        simp only []
        omega
      · subst hx
        simp only []
        omega

/-- C10 (witness: a fresh server accepting `req1`). -/
theorem status_of_returned_execution_id_witness :
    (∀ q ∈ serverState0.executions, q.1 < serverState0.counter)
    ∧ postExecute serverState0 req1 "T1" = some (0,
        { counter := 2
          executions := [(1,
            { id := 1
              taskId := "t1"
              status := ExecStatus.running
              startedAt := "T1"
              completedAt := none
              worktreePath := none
              logs := []
              learnings := [] })] })
    ∧ getStatus
        { counter := 2
          executions := [(1,
            { id := 1
              taskId := "t1"
              status := ExecStatus.running
              startedAt := "T1"
              completedAt := none
              worktreePath := none
              logs := []
              learnings := [] })] } 0 = none :=
  ⟨by simp [serverState0], by decide,
   (status_of_returned_execution_id serverState0 req1 "T1" 0 _
     (by simp [serverState0]) (by decide)).1⟩
